import Mathlib

/-!
Shallow embedding of the `calendar` Go package (calendar.go and the two
duplicated copies in unnamed/part_000 and unnamed/part_001), together with
theorems settling the frozen claims about it.

Machine integers (`int` in Go) are modelled as `Int`; Go's `/` and `%` are
T-division (`Int.tdiv` / `Int.tmod`).  A Go `panic` is modelled as an
`Except GoPanic` error (for functions whose result is consumed) or, for the
two configuration setters that mutate process-wide globals, as explicit
state passing where the prior state is returned unchanged alongside the
panic.  Go slice indexing `s[i]` panics outside `0 ≤ i < len s`; this is
the `indexOutOfRange` panic kind.  Go strings are modelled as `String`
(all names in the package are ASCII, so Go's byte length equals the
character count).
-/

namespace Calendar

/-- Panic kinds raised by the package: month out of 1..12, first-weekday
out of 0..6, a locale with wrong table lengths, and a slice index out of
range. -/
inductive GoPanic where
  | invalidMonth
  | invalidWeekday
  | invalidLocale
  | indexOutOfRange
deriving DecidableEq, Repr

instance {ε α : Type} [DecidableEq ε] [DecidableEq α] : DecidableEq (Except ε α)
  | .error e, .error f => decidable_of_iff (e = f) (by simp)
  | .error _, .ok _ => isFalse (by simp)
  | .ok _, .error _ => isFalse (by simp)
  | .ok a, .ok b => decidable_of_iff (a = b) (by simp)

/-- Go's truncating integer division `a / b`. -/
def goDiv (a b : Int) : Int := Int.tdiv a b

/-- Go's remainder `a % b` (sign follows the dividend). -/
def goMod (a b : Int) : Int := Int.tmod a b

/-- Go slice read `l[i]` for a string slice: panics (index out of range)
unless `0 ≤ i < len l`. -/
def goIndex (l : List String) (i : Int) : Except GoPanic String :=
  if 0 ≤ i then
    match l[i.toNat]? with
    | some s => .ok s
    | none => .error .indexOutOfRange
  else .error .indexOutOfRange

/-- Concatenation of a list of strings, mirroring sequential appends to a
`strings.Builder`. -/
def concatStrs : List String → String
  | [] => ""
  | s :: rest => s ++ concatStrs rest

/-- Go `fmt.Sprintf("%*s", w, s)`: right-justify `s` in a field of width
`w` by left-padding with spaces (no padding when `s` is already wide
enough or `w` is not positive). -/
def padLeft (w : Int) (s : String) : String :=
  String.mk (List.replicate (w - (s.length : Int)).toNat ' ') ++ s

/-- Go slicing `s[:w]` guarded by `len(s) > w`: truncate `s` to its first
`w` characters when it is longer. -/
def truncGo (s : String) (w : Int) : String :=
  if (s.length : Int) > w then String.mk (s.data.take w.toNat) else s

/-- Go slicing `s[:len(s)-1]`: drop the final character. -/
def dropRightOne (s : String) : String := String.mk s.data.dropLast

/-- Decimal digit character for `k < 10` (callers only pass `n % 10`). -/
def digitChar (k : Nat) : Char :=
  if k = 0 then '0' else if k = 1 then '1' else if k = 2 then '2'
  else if k = 3 then '3' else if k = 4 then '4' else if k = 5 then '5'
  else if k = 6 then '6' else if k = 7 then '7' else if k = 8 then '8'
  else if k = 9 then '9' else '0'

/-- Decimal digits of a positive `n`, most significant first; `fuel`
bounds the recursion (10 covers every value the package prints). -/
def natDigits : Nat → Nat → List Char
  | 0, _ => []
  | _ + 1, 0 => []
  | fuel + 1, n + 1 => natDigits fuel ((n + 1) / 10) ++ [digitChar ((n + 1) % 10)]

/-- Decimal rendering of a natural number, as Go `fmt.Sprintf("%d", n)`
for non-negative values. -/
def natRepr (n : Nat) : String :=
  if n = 0 then "0" else String.mk (natDigits 10 n)

/-- Go `fmt.Sprintf("%d", i)` for an `int`. -/
def intRepr (i : Int) : String :=
  if i < 0 then "-" ++ natRepr (-i).toNat else natRepr i.toNat

/-- Locale defines customizable names for days and months (index 0 unused
for months); from `type Locale struct` in calendar.go. -/
structure Locale where
  DayNames : List String
  DayAbbrs : List String
  MonthNames : List String
  MonthAbbrs : List String
deriving DecidableEq, Repr

/-- Default English day names (`defaultDayNames`). -/
def defaultDayNames : List String :=
  ["Sunday", "Monday", "Tuesday", "Wednesday", "Thursday", "Friday", "Saturday"]

/-- Default English day abbreviations (`defaultDayAbbrs`). -/
def defaultDayAbbrs : List String :=
  ["Sun", "Mon", "Tue", "Wed", "Thu", "Fri", "Sat"]

/-- Default English month names, index 0 unused (`defaultMonthNames`). -/
def defaultMonthNames : List String :=
  ["", "January", "February", "March", "April", "May", "June", "July",
   "August", "September", "October", "November", "December"]

/-- Default English month abbreviations, index 0 unused
(`defaultMonthAbbrs`). -/
def defaultMonthAbbrs : List String :=
  ["", "Jan", "Feb", "Mar", "Apr", "May", "Jun", "Jul", "Aug", "Sep",
   "Oct", "Nov", "Dec"]

/-- DefaultLocale is English. -/
def DefaultLocale : Locale :=
  { DayNames := defaultDayNames, DayAbbrs := defaultDayAbbrs,
    MonthNames := defaultMonthNames, MonthAbbrs := defaultMonthAbbrs }

/-- SetLocale updates the global locale names, panicking on invalid
lengths.  State-passing model of the Go global `currentLocale`: the result
is the value of the global after the call together with the panic, if any;
the panic fires before the assignment, so on panic the prior locale `cur`
is returned unchanged. -/
def SetLocale (loc : Locale) (cur : Locale) : Locale × Option GoPanic :=
  if loc.DayNames.length ≠ 7 ∨ loc.DayAbbrs.length ≠ 7 ∨
      loc.MonthNames.length ≠ 13 ∨ loc.MonthAbbrs.length ≠ 13 then
    (cur, some .invalidLocale)
  else (loc, none)

/-- SetFirstWeekday sets the starting weekday (0=Sunday to 6=Saturday),
panicking outside that range.  State-passing model of the Go global
`firstWeekday`, as for `SetLocale`. -/
def SetFirstWeekday (wd : Int) (cur : Int) : Int × Option GoPanic :=
  if wd < 0 ∨ wd > 6 then (cur, some .invalidWeekday) else (wd, none)

/-- IsLeap reports whether the year is a leap year:
`year%4 == 0 && (year%100 != 0 || year%400 == 0)`. -/
def IsLeap (year : Int) : Bool :=
  goMod year 4 == 0 && (goMod year 100 != 0 || goMod year 400 == 0)

/-- LeapDays: `f(y2) - f(y1)` with `f(y) = y/4 - y/100 + y/400` under Go's
truncating division. -/
def LeapDays (y1 y2 : Int) : Int :=
  (goDiv y2 4 - goDiv y2 100 + goDiv y2 400) -
    (goDiv y1 4 - goDiv y1 100 + goDiv y1 400)

/-- Day count of the proleptic Gregorian date since 1970-01-01 (Howard
Hinnant's civil-from-days formula); models the day arithmetic Go's
`time.Date` performs for in-range dates. -/
def daysFromCivil (y m d : Int) : Int :=
  let y2 := if m ≤ 2 then y - 1 else y
  let era := Int.fdiv y2 400
  let yoe := y2 - era * 400
  let mp := (m + 9) % 12
  let doy := (153 * mp + 2) / 5 + d - 1
  let doe := yoe * 365 + yoe / 4 - yoe / 100 + doy
  era * 146097 + doe - 719468

/-- Weekday returns the weekday for the date (0=Sunday ... 6=Saturday);
models `time.Date(...).Weekday()` (1970-01-01 was a Thursday, code 4). -/
def Weekday (year month day : Int) : Int :=
  (daysFromCivil year month day + 4) % 7

/-- Days-in-month table of `MonthRange` (its `days` local): 31, except 30
for April, June, September, November, and 28/29 for February by
`IsLeap`. -/
def monthDays (year month : Int) : Int :=
  if month = 4 ∨ month = 6 ∨ month = 9 ∨ month = 11 then 30
  else if month = 2 then (if IsLeap year then 29 else 28)
  else 31

/-- MonthRange returns `(first_weekday, days_in_month)` for year/month,
panicking when the month is outside 1..12. -/
def MonthRange (year month : Int) : Except GoPanic (Int × Int) :=
  if month < 1 ∨ month > 12 then .error .invalidMonth
  else .ok (Weekday year month 1, monthDays year month)

/-- Inner cell loop shared verbatim by all three `MonthCalendar` copies:
starting at grid index `idx` with next day number `day`, emit `fuel` cells
where a cell is `0` when `idx < shift` or `day > days` and otherwise the
current `day` (which then increments); returns the cells and the final
`day`. -/
def monthRow (shift days : Int) : Nat → Int → Int → List Int × Int
  | 0, _, day => ([], day)
  | fuel + 1, idx, day =>
    if idx < shift ∨ day > days then
      let r := monthRow shift days fuel (idx + 1) day
      (0 :: r.1, r.2)
    else
      let r := monthRow shift days fuel (idx + 1) (day + 1)
      (day :: r.1, r.2)

/-- Week loop of `MonthCalendar` in calendar.go: up to 6 rows; a fully
sentinel (all-zero) row is not appended and stops the loop. -/
def monthWeeks (shift days : Int) : Nat → Nat → Int → List (List Int)
  | 0, _, _ => []
  | fuel + 1, w, day =>
    let r := monthRow shift days 7 (7 * (w : Int)) day
    if r.1.all (fun c => c == 0) then []
    else r.1 :: monthWeeks shift days fuel (w + 1) r.2

/-- MonthCalendar (calendar.go lines 121-144) returns the week-by-week
matrix for the month, `0` for padding; `fw` is the process-wide
`firstWeekday` global the function reads. -/
def MonthCalendar (fw : Int) (year month : Int) : Except GoPanic (List (List Int)) := do
  let wdDays ← MonthRange year month
  let shift := goMod (wdDays.1 - fw + 7) 7
  pure (monthWeeks shift wdDays.2 6 0 1)

/-- Week loop of the `MonthCalendar` copy in unnamed/part_000: a fixed
6-row buffer is filled row by row; after the row in which `day` passes
`days` the loop breaks, leaving the remaining pre-allocated rows all
zero. -/
def monthWeeksBuf (shift days : Int) : Nat → Nat → Int → List (List Int)
  | 0, _, _ => []
  | fuel + 1, w, day =>
    let r := monthRow shift days 7 (7 * (w : Int)) day
    if r.2 > days then r.1 :: List.replicate fuel (List.replicate 7 (0 : Int))
    else r.1 :: monthWeeksBuf shift days fuel (w + 1) r.2

/-- Trailing-empty-week trimming loop of unnamed/part_000: drop all-zero
rows from the end until a row with a day is found. -/
def trimTrailingEmpty (cal : List (List Int)) : List (List Int) :=
  (cal.reverse.dropWhile (fun r => r.all (fun c => c == 0))).reverse

/-- MonthCalendar of unnamed/part_000 (lines 90-128): fill a fixed 6-row
buffer, then trim trailing empty weeks. -/
def MonthCalendarBuf (fw : Int) (year month : Int) : Except GoPanic (List (List Int)) := do
  let wdDays ← MonthRange year month
  let shift := goMod (wdDays.1 - fw + 7) 7
  pure (trimTrailingEmpty (monthWeeksBuf shift wdDays.2 6 0 1))

/-- Week loop of the `MonthCalendar` copy in unnamed/part_001: after the
row in which `day` passes `days`, return `cal[:w+1]`, i.e. the rows built
so far including the current one. -/
def monthWeeksCut (shift days : Int) : Nat → Nat → Int → List (List Int)
  | 0, _, _ => []
  | fuel + 1, w, day =>
    let r := monthRow shift days 7 (7 * (w : Int)) day
    if r.2 > days then [r.1]
    else r.1 :: monthWeeksCut shift days fuel (w + 1) r.2

/-- MonthCalendar of unnamed/part_001 (lines 93-115). -/
def MonthCalendarCut (fw : Int) (year month : Int) : Except GoPanic (List (List Int)) := do
  let wdDays ← MonthRange year month
  let shift := goMod (wdDays.1 - fw + 7) 7
  pure (monthWeeksCut shift wdDays.2 6 0 1)

/-- Loop body of `weekHeader`: for each index `i` of `is`, look up
`DayAbbrs[(i+firstWeekday)%7]`, truncate it to `width` characters when
longer, and append it right-justified in `width` columns followed by a
space. -/
def weekHeaderCells (fw : Int) (loc : Locale) (width : Int) : List Int → Except GoPanic String
  | [] => pure ""
  | i :: is => do
    let abbr ← goIndex loc.DayAbbrs (goMod (i + fw) 7)
    let rest ← weekHeaderCells fw loc width is
    pure (padLeft width (truncGo abbr width) ++ " " ++ rest)

/-- weekHeader returns the weekday abbreviation line for text calendars
(the final trailing space is cut off with `s[:len(s)-1]`). -/
def weekHeader (fw : Int) (loc : Locale) (width : Int) : Except GoPanic String := do
  let s ← weekHeaderCells fw loc width [0, 1, 2, 3, 4, 5, 6]
  pure (dropRightOne s)

/-- One grid cell of the text renderer: `fmt.Fprintf("%*s ", width, "")`
for the `0` sentinel, `fmt.Fprintf("%*d ", width, d)` otherwise. -/
def cellText (width d : Int) : String :=
  (if d == 0 then padLeft width "" else padLeft width (intRepr d)) ++ " "

/-- One grid row of the text renderer. -/
def rowText (width : Int) (week : List Int) : String :=
  concatStrs (week.map (cellText width))

/-- Week rows of `FormatMonth`: each row followed by a newline and, when
`lines > 0`, that many extra blank lines. -/
def monthBody (width lines : Int) (cal : List (List Int)) : String :=
  concatStrs (cal.map (fun week =>
    rowText width week ++ "\n" ++
      (if lines > 0 then String.mk (List.replicate lines.toNat '\n') else "")))

/-- FormatMonth (calendar.go lines 162-185) returns formatted text for one
month; `fw` and `loc` are the process-wide `firstWeekday` and
`currentLocale` globals it reads.  The month-name lookup
`currentLocale.MonthNames[month]` happens before the grid is built, so it
is the first point of failure. -/
def FormatMonth (fw : Int) (loc : Locale) (year month width lines : Int) :
    Except GoPanic String := do
  let width := if width < 2 then 2 else width
  let mname ← goIndex loc.MonthNames month
  let header := mname ++ " " ++ intRepr year
  let title := padLeft (goDiv (7 * (width + 1) - 1 + (header.length : Int)) 2) header ++ "\n"
  let wh ← weekHeader fw loc width
  let cal ← MonthCalendar fw year month
  pure (title ++ (wh ++ "\n") ++ monthBody width lines cal)

/-- HTMLCalendar generates HTML tables; the Go `map[int]string` of CSS
classes is modelled as an association list (a read of a missing key
yields the empty string, as in Go). -/
structure HTMLCalendar where
  firstweekday : Int
  cssclasses : List (Int × String)
deriving DecidableEq, Repr

/-- Go map read `m[k]` with the zero value `""` for missing keys. -/
def mapGet (m : List (Int × String)) (k : Int) : String :=
  ((m.find? (fun p => p.1 == k)).map Prod.snd).getD ""

/-- NewHTMLCalendar creates an `HTMLCalendar` with the given
first weekday; an out-of-range value silently falls back to Monday. -/
def NewHTMLCalendar (firstweekday : Int) : HTMLCalendar :=
  let fw := if firstweekday < 0 ∨ firstweekday > 6 then 1 else firstweekday
  { firstweekday := fw,
    cssclasses := [(0, "mon"), (1, "tue"), (2, "wed"), (3, "thu"),
                   (4, "fri"), (5, "sat"), (6, "sun")] }

/-- Header-row cells of `FormatMonthHTML`: one `<th>` per weekday in the
calendar's column order. -/
def htmlHeadCells (loc : Locale) (c : HTMLCalendar) : List Int → Except GoPanic String
  | [] => pure ""
  | i :: is => do
    let wd := goMod (i + c.firstweekday) 7
    let abbr ← goIndex loc.DayAbbrs wd
    let rest ← htmlHeadCells loc c is
    pure ("<th class=\"" ++ mapGet c.cssclasses wd ++ "\">" ++ abbr ++ "</th>" ++ rest)

/-- Day cells of one `FormatMonthHTML` grid row; the column index `d`
determines the weekday CSS class. -/
def htmlWeekCells (c : HTMLCalendar) (week : List Int) : String :=
  concatStrs ((week.enum).map (fun p =>
    let wd := goMod ((p.1 : Int) + c.firstweekday) 7
    if p.2 == 0 then "<td class=\"noday\">&nbsp;</td>"
    else "<td class=\"" ++ mapGet c.cssclasses wd ++ "\">" ++ intRepr p.2 ++ "</td>"))

/-- FormatMonthHTML (calendar.go lines 256-285) returns the HTML table
for one month.  The title lookup `currentLocale.MonthNames[month]` runs
first; the grid itself comes from the package-level `MonthCalendar`,
which reads the global first weekday `fw`, not the struct field. -/
def FormatMonthHTML (fw : Int) (loc : Locale) (c : HTMLCalendar) (year month : Int)
    (withyear : Bool) : Except GoPanic String := do
  let mname ← goIndex loc.MonthNames month
  let title := if withyear then mname ++ " " ++ intRepr year else mname
  let headRow ← htmlHeadCells loc c [0, 1, 2, 3, 4, 5, 6]
  let cal ← MonthCalendar fw year month
  pure ("<table border=\"0\" cellpadding=\"0\" cellspacing=\"0\" class=\"month\">\n"
    ++ "<tr><th colspan=\"7\" class=\"month\">" ++ title ++ "</th></tr>\n"
    ++ "<tr>" ++ headRow ++ "</tr>\n"
    ++ concatStrs (cal.map (fun week => "<tr>" ++ htmlWeekCells c week ++ "</tr>\n"))
    ++ "</table>")

/-- The package's process-wide mutable globals: the first-weekday setting
and the active locale. -/
structure CalState where
  firstWeekday : Int
  currentLocale : Locale
deriving DecidableEq

/-- IsLeap as invoked in a process whose globals are `s` (the source body
reads no global). -/
def IsLeapIn (_ : CalState) (year : Int) : Bool := IsLeap year

/-- MonthRange as invoked in a process whose globals are `s` (the source
body reads no global). -/
def MonthRangeIn (_ : CalState) (year month : Int) : Except GoPanic (Int × Int) :=
  MonthRange year month

/-- MonthCalendar as invoked in a process whose globals are `s` (it reads
the `firstWeekday` global). -/
def MonthCalendarIn (s : CalState) (year month : Int) : Except GoPanic (List (List Int)) :=
  MonthCalendar s.firstWeekday year month

/-- Number of leap years `y` with `y1 ≤ y < y2` (the half-open range the
`LeapDays` doc comment promises to count). -/
def leapYearsIn (y1 y2 : Int) : Nat :=
  ((List.range (y2 - y1).toNat).filter (fun k => IsLeap (y1 + k))).length

/-- Whitespace test used by the round-trip re-parsing of rendered
calendars. -/
def isWsChar (c : Char) : Bool :=
  c == ' ' || c == '\n' || c == '\t' || c == '\r'

/-- Split a character list on whitespace; `acc` holds the characters of
the token currently being read, in reverse. -/
def wsTokensChars : List Char → List Char → List (List Char)
  | acc, [] => if acc.isEmpty then [] else [acc.reverse]
  | acc, c :: cs =>
    if isWsChar c then
      if acc.isEmpty then wsTokensChars [] cs
      else acc.reverse :: wsTokensChars [] cs
    else wsTokensChars (c :: acc) cs

/-- Maximal whitespace-free tokens of a string, in order. -/
def wsTokens (s : String) : List String :=
  (wsTokensChars [] s.data).map fun l => String.mk l

/-- Drop the first `n` newline-terminated lines of a character list. -/
def dropLinesChars : List Char → Nat → List Char
  | cs, 0 => cs
  | [], _ => []
  | c :: cs, n + 1 =>
    if c == '\n' then dropLinesChars cs n else dropLinesChars cs (n + 1)

/-- Drop the first `n` newline-terminated lines of a string. -/
def dropLines (n : Nat) (s : String) : String := String.mk (dropLinesChars s.data n)

/-- Split a character list at every occurrence of `sep`. -/
def splitOnChar (sep : Char) : List Char → List (List Char)
  | [] => [[]]
  | c :: cs =>
    if c == sep then [] :: splitOnChar sep cs
    else
      match splitOnChar sep cs with
      | [] => [[c]]
      | l :: ls => (c :: l) :: ls

/-- The lines of a string (split at newlines). -/
def splitLines (s : String) : List String :=
  (splitOnChar '\n' s.data).map fun l => String.mk l

/-! ## Helper lemmas -/

theorem Weekday_nonneg (year month day : Int) : 0 ≤ Weekday year month day :=
  Int.emod_nonneg _ (by decide)

theorem Weekday_lt (year month day : Int) : Weekday year month day < 7 :=
  Int.emod_lt_of_pos _ (by decide)

theorem goMod7_nonneg (a : Int) (h : 0 ≤ a) : 0 ≤ goMod a 7 :=
  Int.tmod_nonneg _ h

theorem goMod7_lt (a : Int) : goMod a 7 < 7 :=
  Int.tmod_lt_of_pos _ (by decide)

theorem monthDays_cases (year month : Int) :
    monthDays year month = 28 ∨ monthDays year month = 29 ∨
      monthDays year month = 30 ∨ monthDays year month = 31 := by
  unfold monthDays
  split
  · tauto
  · split
    · split <;> tauto
    · tauto

theorem MonthRange_eq_ok (year month : Int) (h1 : 1 ≤ month) (h2 : month ≤ 12) :
    MonthRange year month = .ok (Weekday year month 1, monthDays year month) := by
  rw [MonthRange, if_neg (by omega)]

theorem MonthRange_eq_error (year month : Int) (h : month < 1 ∨ month > 12) :
    MonthRange year month = .error .invalidMonth := by
  rw [MonthRange, if_pos h]

theorem MonthCalendar_eq_ok (fw year month : Int) (h1 : 1 ≤ month) (h2 : month ≤ 12) :
    MonthCalendar fw year month =
      .ok (monthWeeks (goMod (Weekday year month 1 - fw + 7) 7) (monthDays year month) 6 0 1) := by
  rw [MonthCalendar, MonthRange_eq_ok year month h1 h2]
  rfl

theorem MonthCalendar_eq_error (fw year month : Int) (h : month < 1 ∨ month > 12) :
    MonthCalendar fw year month = .error .invalidMonth := by
  rw [MonthCalendar, MonthRange_eq_error year month h]
  rfl

/-- Structural invariants of the week matrix for one `(shift, days)`
pair: 7 cells per row, the non-sentinel cells are exactly `1..days` in
row-major order, the row count is `ceil((shift+days)/7)` and lies in
4..6, and no cell is negative. -/
@[reducible] def gridProps (shift days : Int) : Prop :=
  (∀ r ∈ monthWeeks shift days 6 0 1, r.length = 7) ∧
  (monthWeeks shift days 6 0 1).flatten.filter (fun c => c != 0) =
    (List.range days.toNat).map (fun (i : Nat) => ((i : Int) + 1)) ∧
  (((monthWeeks shift days 6 0 1).length : Int) = goDiv (shift + days + 6) 7) ∧
  ((monthWeeks shift days 6 0 1).length = 4 ∨ (monthWeeks shift days 6 0 1).length = 5 ∨
    (monthWeeks shift days 6 0 1).length = 6) ∧
  (∀ r ∈ monthWeeks shift days 6 0 1, ∀ d ∈ r, 0 ≤ d)

theorem gridProps_valid (shift days : Int) (hs0 : 0 ≤ shift) (hs6 : shift ≤ 6)
    (hd : days = 28 ∨ days = 29 ∨ days = 30 ∨ days = 31) : gridProps shift days := by
  rcases hd with rfl | rfl | rfl | rfl <;> interval_cases shift <;> decide

theorem shift_nonneg (wd fw : Int) (hw : 0 ≤ wd) (hf : fw ≤ 6) :
    0 ≤ goMod (wd - fw + 7) 7 :=
  goMod7_nonneg _ (by omega)

theorem shift_le_six (wd fw : Int) : goMod (wd - fw + 7) 7 ≤ 6 := by
  have := goMod7_lt (wd - fw + 7)
  omega

theorem MonthCalendarBuf_eq_ok (fw year month : Int) (h1 : 1 ≤ month) (h2 : month ≤ 12) :
    MonthCalendarBuf fw year month =
      .ok (trimTrailingEmpty
        (monthWeeksBuf (goMod (Weekday year month 1 - fw + 7) 7) (monthDays year month) 6 0 1)) := by
  rw [MonthCalendarBuf, MonthRange_eq_ok year month h1 h2]
  rfl

theorem MonthCalendarCut_eq_ok (fw year month : Int) (h1 : 1 ≤ month) (h2 : month ≤ 12) :
    MonthCalendarCut fw year month =
      .ok (monthWeeksCut (goMod (Weekday year month 1 - fw + 7) 7) (monthDays year month) 6 0 1) := by
  rw [MonthCalendarCut, MonthRange_eq_ok year month h1 h2]
  rfl

/-- The three duplicated week-loop implementations produce the same rows
for one `(shift, days)` pair. -/
@[reducible] def buildersAgree (shift days : Int) : Prop :=
  monthWeeks shift days 6 0 1 = trimTrailingEmpty (monthWeeksBuf shift days 6 0 1) ∧
  monthWeeks shift days 6 0 1 = monthWeeksCut shift days 6 0 1

theorem buildersAgree_valid (shift days : Int) (hs0 : 0 ≤ shift) (hs6 : shift ≤ 6)
    (hd : days = 28 ∨ days = 29 ∨ days = 30 ∨ days = 31) : buildersAgree shift days := by
  rcases hd with rfl | rfl | rfl | rfl <;> interval_cases shift <;> decide

/-! ## Claim theorems -/

/-- C1: for every year, month in 1..12 and first-weekday in 0..6, the
`MonthCalendar` grid has rows of exactly 7 cells; its non-sentinel cells
are exactly `1..daysInMonth`, each once, in increasing row-major order;
the row count is `ceil((shift + days)/7)` with
`shift = (startWeekday - firstWeekday + 7) mod 7`, hence 4, 5 or 6, with
no all-sentinel row appended; and with first weekday Monday,
`MonthCalendar 2026 2` is exactly the five February 2026 rows. -/
theorem monthCalendar_grid_invariants :
    (∀ (year month fw : Int), 1 ≤ month → month ≤ 12 → 0 ≤ fw → fw ≤ 6 →
      ∃ wd days grid,
        MonthRange year month = .ok (wd, days) ∧
        MonthCalendar fw year month = .ok grid ∧
        (∀ r ∈ grid, r.length = 7) ∧
        grid.flatten.filter (fun c => c != 0) =
          (List.range days.toNat).map (fun (i : Nat) => ((i : Int) + 1)) ∧
        ((grid.length : Int) = goDiv (goMod (wd - fw + 7) 7 + days + 6) 7) ∧
        (grid.length = 4 ∨ grid.length = 5 ∨ grid.length = 6)) ∧
    MonthCalendar 1 2026 2 =
      .ok [[0, 0, 0, 0, 0, 0, 1], [2, 3, 4, 5, 6, 7, 8], [9, 10, 11, 12, 13, 14, 15],
           [16, 17, 18, 19, 20, 21, 22], [23, 24, 25, 26, 27, 28, 0]] := by
  constructor
  · intro year month fw h1 h2 hf0 hf6
    refine ⟨Weekday year month 1, monthDays year month, _,
      MonthRange_eq_ok year month h1 h2, MonthCalendar_eq_ok fw year month h1 h2, ?_⟩
    have hg := gridProps_valid _ _
      (shift_nonneg _ fw (Weekday_nonneg year month 1) hf6)
      (shift_le_six (Weekday year month 1) fw) (monthDays_cases year month)
    exact ⟨hg.1, hg.2.1, hg.2.2.1, hg.2.2.2.1⟩
  · decide

/-- Witness for C1 at year 2026, month 2, first weekday Monday. -/
theorem monthCalendar_grid_invariants_witness :
    ∃ wd days grid,
      MonthRange 2026 2 = .ok (wd, days) ∧
      MonthCalendar 1 2026 2 = .ok grid ∧
      (∀ r ∈ grid, r.length = 7) ∧
      grid.flatten.filter (fun c => c != 0) =
        (List.range days.toNat).map (fun (i : Nat) => ((i : Int) + 1)) ∧
      ((grid.length : Int) = goDiv (goMod (wd - 1 + 7) 7 + days + 6) 7) ∧
      (grid.length = 4 ∨ grid.length = 5 ∨ grid.length = 6) :=
  monthCalendar_grid_invariants.1 2026 2 1 (by decide) (by decide) (by decide) (by decide)

/-- C2 is a code bug: `LeapDays` misses the `y-1` adjustment, so it counts
leap years in `(y1, y2]` instead of the documented `[y1, y2)`.  At the
failing input `(2000, 2005)` it returns 1 while `[2000, 2005)` holds the
two leap years 2000 and 2004; at `(1900, 2000)` it returns the expected
25 only because `(1900, 2000]` gains 2000 and drops the non-leap 1900,
while the true `[1900, 2000)` count is 24. -/
theorem leapDays_off_by_one :
    LeapDays 2000 2005 = 1 ∧ leapYearsIn 2000 2005 = 2 ∧
    LeapDays 1900 2000 = 25 ∧ leapYearsIn 1900 2000 = 24 := by decide

/-- C6: reconfiguring the first-weekday global changes neither `IsLeap`
nor `MonthRange` (start weekday and day count), and the grid builder's
day sequence is also unchanged — only the column layout moves. -/
theorem calendarMath_firstWeekday_noninterference :
    ∀ (w1 w2 : Int) (loc : Locale) (year month : Int),
      0 ≤ w1 → w1 ≤ 6 → 0 ≤ w2 → w2 ≤ 6 → 1 ≤ month → month ≤ 12 →
      IsLeapIn ⟨w1, loc⟩ year = IsLeapIn ⟨w2, loc⟩ year ∧
      MonthRangeIn ⟨w1, loc⟩ year month = MonthRangeIn ⟨w2, loc⟩ year month ∧
      (∃ g1 g2, MonthCalendarIn ⟨w1, loc⟩ year month = .ok g1 ∧
        MonthCalendarIn ⟨w2, loc⟩ year month = .ok g2 ∧
        g1.flatten.filter (fun c => c != 0) = g2.flatten.filter (fun c => c != 0)) := by
  intro w1 w2 loc year month h10 h16 h20 h26 hm1 hm2
  refine ⟨rfl, rfl, _, _, MonthCalendar_eq_ok w1 year month hm1 hm2,
    MonthCalendar_eq_ok w2 year month hm1 hm2, ?_⟩
  have hg1 := gridProps_valid _ _
    (shift_nonneg _ w1 (Weekday_nonneg year month 1) h16)
    (shift_le_six (Weekday year month 1) w1) (monthDays_cases year month)
  have hg2 := gridProps_valid _ _
    (shift_nonneg _ w2 (Weekday_nonneg year month 1) h26)
    (shift_le_six (Weekday year month 1) w2) (monthDays_cases year month)
  rw [hg1.2.1, hg2.2.1]

/-- Witness for C6 at first weekdays 0 and 3, February 2026. -/
theorem calendarMath_firstWeekday_noninterference_witness :
    IsLeapIn ⟨0, DefaultLocale⟩ 2026 = IsLeapIn ⟨3, DefaultLocale⟩ 2026 ∧
    MonthRangeIn ⟨0, DefaultLocale⟩ 2026 2 = MonthRangeIn ⟨3, DefaultLocale⟩ 2026 2 ∧
    (∃ g1 g2, MonthCalendarIn ⟨0, DefaultLocale⟩ 2026 2 = .ok g1 ∧
      MonthCalendarIn ⟨3, DefaultLocale⟩ 2026 2 = .ok g2 ∧
      g1.flatten.filter (fun c => c != 0) = g2.flatten.filter (fun c => c != 0)) :=
  calendarMath_firstWeekday_noninterference 0 3 DefaultLocale 2026 2
    (by decide) (by decide) (by decide) (by decide) (by decide) (by decide)

/-- C7: `SetLocale` accepts exactly the locales with 7 day names, 7 day
abbreviations and 13 month names/abbreviations (index 0 unused), replacing
the active locale wholesale; otherwise it panics with the invalid-locale
error and the active locale stays what it was. -/
theorem setLocale_validation_atomic :
    ∀ (cur loc : Locale),
      ((loc.DayNames.length = 7 ∧ loc.DayAbbrs.length = 7 ∧
          loc.MonthNames.length = 13 ∧ loc.MonthAbbrs.length = 13) →
        SetLocale loc cur = (loc, none)) ∧
      (¬(loc.DayNames.length = 7 ∧ loc.DayAbbrs.length = 7 ∧
          loc.MonthNames.length = 13 ∧ loc.MonthAbbrs.length = 13) →
        SetLocale loc cur = (cur, some .invalidLocale)) := by
  intro cur loc
  constructor
  · intro h
    rw [SetLocale, if_neg (by tauto)]
  · intro h
    rw [SetLocale, if_pos (by tauto)]

/-- Witness for C7: the default locale is accepted wholesale; the empty
locale is rejected leaving the prior locale in place. -/
theorem setLocale_validation_atomic_witness :
    SetLocale DefaultLocale ⟨[], [], [], []⟩ = (DefaultLocale, none) ∧
    SetLocale ⟨[], [], [], []⟩ DefaultLocale = (DefaultLocale, some .invalidLocale) :=
  ⟨(setLocale_validation_atomic ⟨[], [], [], []⟩ DefaultLocale).1 (by decide),
   (setLocale_validation_atomic DefaultLocale ⟨[], [], [], []⟩).2 (by decide)⟩

/-- Counterexample for C8: `NewHTMLCalendar` does not reject the
out-of-range first weekday 7 — it silently builds the same calendar as
for Monday. -/
theorem newHTMLCalendar_accepts_invalid_weekday :
    NewHTMLCalendar 7 = NewHTMLCalendar 1 ∧ (NewHTMLCalendar 7).firstweekday = 1 := by
  decide

/-- C8 as amended: `SetFirstWeekday` rejects every weekday outside 0..6
with the invalid-weekday panic, leaving the process-wide setting
unchanged; `NewHTMLCalendar`, however, does not reject an out-of-range
value but silently falls back to Monday. -/
theorem invalid_weekday_handling :
    ∀ (wd cur : Int), (wd < 0 ∨ wd > 6) →
      SetFirstWeekday wd cur = (cur, some .invalidWeekday) ∧
      NewHTMLCalendar wd = NewHTMLCalendar 1 := by
  intro wd cur h
  constructor
  · rw [SetFirstWeekday, if_pos h]
  · rw [NewHTMLCalendar, NewHTMLCalendar, if_pos h, if_neg (by omega)]

/-- Witness for C8's amended statement at weekday 7. -/
theorem invalid_weekday_handling_witness :
    SetFirstWeekday 7 1 = (1, some .invalidWeekday) ∧
    NewHTMLCalendar 7 = NewHTMLCalendar 1 :=
  invalid_weekday_handling 7 1 (by decide)

/-- C10: the three duplicated `MonthCalendar` implementations (append-on
non-empty in calendar.go, fixed 6-row buffer plus trailing trim in
unnamed/part_000, `cal[:w+1]` early return in unnamed/part_001) return
identical grids for every year, month in 1..12 and first-weekday setting
in 0..6. -/
theorem monthCalendar_copies_equivalent :
    ∀ (year month fw : Int), 1 ≤ month → month ≤ 12 → 0 ≤ fw → fw ≤ 6 →
      MonthCalendar fw year month = MonthCalendarBuf fw year month ∧
      MonthCalendar fw year month = MonthCalendarCut fw year month := by
  intro year month fw h1 h2 hf0 hf6
  have ha := buildersAgree_valid _ _
    (shift_nonneg _ fw (Weekday_nonneg year month 1) hf6)
    (shift_le_six (Weekday year month 1) fw) (monthDays_cases year month)
  rw [MonthCalendar_eq_ok fw year month h1 h2, MonthCalendarBuf_eq_ok fw year month h1 h2,
    MonthCalendarCut_eq_ok fw year month h1 h2]
  exact ⟨by rw [ha.1], by rw [ha.2]⟩

/-- Witness for C10 at year 2026, month 2, first weekday Monday. -/
theorem monthCalendar_copies_equivalent_witness :
    MonthCalendar 1 2026 2 = MonthCalendarBuf 1 2026 2 ∧
    MonthCalendar 1 2026 2 = MonthCalendarCut 1 2026 2 :=
  monthCalendar_copies_equivalent 2026 2 1 (by decide) (by decide) (by decide) (by decide)

theorem goIndex_ok (l : List String) (i : Int) (h0 : 0 ≤ i) (h1 : i.toNat < l.length) :
    ∃ s, goIndex l i = .ok s ∧ s ∈ l := by
  refine ⟨l.get ⟨i.toNat, h1⟩, ?_, List.get_mem l i.toNat h1⟩
  unfold goIndex
  rw [if_pos h0, List.getElem?_eq_getElem h1]
  rfl

theorem goIndex_err_neg (l : List String) (i : Int) (h : i < 0) :
    goIndex l i = .error .indexOutOfRange := by
  unfold goIndex
  rw [if_neg (by omega)]

theorem goIndex_err_ge (l : List String) (i : Int) (h : (l.length : Int) ≤ i) :
    goIndex l i = .error .indexOutOfRange := by
  unfold goIndex
  by_cases h0 : 0 ≤ i
  · rw [if_pos h0, List.getElem?_eq_none (by omega)]
  · rw [if_neg h0]

theorem weekHeaderCells_ok (fw width : Int) (loc : Locale) (hfw : 0 ≤ fw)
    (hlen : loc.DayAbbrs.length = 7) :
    ∀ is : List Int, (∀ i ∈ is, 0 ≤ i) →
      ∃ s, weekHeaderCells fw loc width is = .ok s := by
  intro is
  induction is with
  | nil => exact fun _ => ⟨"", rfl⟩
  | cons i is ih =>
    intro h
    obtain ⟨s, hs⟩ := ih (fun j hj => h j (List.mem_cons_of_mem _ hj))
    have hi : 0 ≤ i := h i (List.mem_cons_self _ _)
    have hidx0 : 0 ≤ goMod (i + fw) 7 := goMod7_nonneg _ (by omega)
    have hidx7 : (goMod (i + fw) 7).toNat < loc.DayAbbrs.length := by
      have := goMod7_lt (i + fw)
      omega
    obtain ⟨a, ha, _⟩ := goIndex_ok _ _ hidx0 hidx7
    exact ⟨_, by rw [weekHeaderCells, ha, hs]; rfl⟩

theorem weekHeader_ok (fw width : Int) (loc : Locale) (hfw : 0 ≤ fw)
    (hlen : loc.DayAbbrs.length = 7) :
    ∃ s, weekHeader fw loc width = .ok s := by
  obtain ⟨s, hs⟩ := weekHeaderCells_ok fw width loc hfw hlen [0, 1, 2, 3, 4, 5, 6]
    (by intro i hi; fin_cases hi <;> omega)
  exact ⟨_, by rw [weekHeader, hs]; rfl⟩

theorem FormatMonth_ok (fw year month width lines : Int) (hm1 : 1 ≤ month)
    (hm2 : month ≤ 12) (hfw : 0 ≤ fw) :
    ∃ s, FormatMonth fw DefaultLocale year month width lines = .ok s := by
  obtain ⟨name, hname, _⟩ := goIndex_ok DefaultLocale.MonthNames month (by omega)
    (by show month.toNat < 13; omega)
  obtain ⟨wh, hwh⟩ := weekHeader_ok fw (if width < 2 then 2 else width) DefaultLocale hfw rfl
  exact ⟨_, by rw [FormatMonth, hname, hwh,
    MonthCalendar_eq_ok fw year month hm1 hm2]; rfl⟩

theorem FormatMonth_err_zero (fw year width lines : Int) (hfw : 0 ≤ fw) :
    FormatMonth fw DefaultLocale year 0 width lines = .error .invalidMonth := by
  obtain ⟨wh, hwh⟩ := weekHeader_ok fw (if width < 2 then 2 else width) DefaultLocale hfw rfl
  rw [FormatMonth, show goIndex DefaultLocale.MonthNames 0 = .ok "" from rfl, hwh,
    MonthCalendar_eq_error fw year 0 (by omega)]
  rfl

theorem FormatMonth_err_oob (fw year month width lines : Int) (h : month < 0 ∨ 12 < month) :
    FormatMonth fw DefaultLocale year month width lines = .error .indexOutOfRange := by
  rcases h with h | h
  · rw [FormatMonth, goIndex_err_neg _ _ h]
    rfl
  · rw [FormatMonth, goIndex_err_ge DefaultLocale.MonthNames month (by show (13 : Int) ≤ month; omega)]
    rfl

theorem NewHTMLCalendar_fw_bounds (wd : Int) :
    0 ≤ (NewHTMLCalendar wd).firstweekday ∧ (NewHTMLCalendar wd).firstweekday ≤ 6 := by
  unfold NewHTMLCalendar
  dsimp only
  split
  · exact ⟨by omega, by omega⟩
  · omega

theorem htmlHeadCells_ok (loc : Locale) (c : HTMLCalendar) (hfw : 0 ≤ c.firstweekday)
    (hlen : loc.DayAbbrs.length = 7) :
    ∀ is : List Int, (∀ i ∈ is, 0 ≤ i) →
      ∃ s, htmlHeadCells loc c is = .ok s := by
  intro is
  induction is with
  | nil => exact fun _ => ⟨"", rfl⟩
  | cons i is ih =>
    intro h
    obtain ⟨s, hs⟩ := ih (fun j hj => h j (List.mem_cons_of_mem _ hj))
    have hi : 0 ≤ i := h i (List.mem_cons_self _ _)
    have hidx0 : 0 ≤ goMod (i + c.firstweekday) 7 := goMod7_nonneg _ (by omega)
    have hidx7 : (goMod (i + c.firstweekday) 7).toNat < loc.DayAbbrs.length := by
      have := goMod7_lt (i + c.firstweekday)
      omega
    obtain ⟨a, ha, _⟩ := goIndex_ok _ _ hidx0 hidx7
    exact ⟨_, by rw [htmlHeadCells, ha, hs]; rfl⟩

theorem FormatMonthHTML_ok (fw year month : Int) (c : HTMLCalendar) (wy : Bool)
    (hm1 : 1 ≤ month) (hm2 : month ≤ 12) (hcfw : 0 ≤ c.firstweekday) :
    ∃ s, FormatMonthHTML fw DefaultLocale c year month wy = .ok s := by
  obtain ⟨name, hname, _⟩ := goIndex_ok DefaultLocale.MonthNames month (by omega)
    (by show month.toNat < 13; omega)
  obtain ⟨hr, hhr⟩ := htmlHeadCells_ok DefaultLocale c hcfw rfl [0, 1, 2, 3, 4, 5, 6]
    (by intro i hi; fin_cases hi <;> omega)
  exact ⟨_, by rw [FormatMonthHTML, hname, hhr,
    MonthCalendar_eq_ok fw year month hm1 hm2]; rfl⟩

theorem FormatMonthHTML_err_zero (fw year : Int) (c : HTMLCalendar) (wy : Bool)
    (hcfw : 0 ≤ c.firstweekday) :
    FormatMonthHTML fw DefaultLocale c year 0 wy = .error .invalidMonth := by
  obtain ⟨hr, hhr⟩ := htmlHeadCells_ok DefaultLocale c hcfw rfl [0, 1, 2, 3, 4, 5, 6]
    (by intro i hi; fin_cases hi <;> omega)
  rw [FormatMonthHTML, show goIndex DefaultLocale.MonthNames 0 = .ok "" from rfl, hhr,
    MonthCalendar_eq_error fw year 0 (by omega)]
  rfl

theorem FormatMonthHTML_err_oob (fw year month : Int) (c : HTMLCalendar) (wy : Bool)
    (h : month < 0 ∨ 12 < month) :
    FormatMonthHTML fw DefaultLocale c year month wy = .error .indexOutOfRange := by
  rcases h with h | h
  · rw [FormatMonthHTML, goIndex_err_neg _ _ h]
    rfl
  · rw [FormatMonthHTML, goIndex_err_ge DefaultLocale.MonthNames month
      (by show (13 : Int) ≤ month; omega)]
    rfl

/-- Counterexample for C3: at month 13 (first weekday Monday, default
locale) the text renderer fails with the index-out-of-range panic of the
`MonthNames[month]` lookup, not with the InvalidMonth error the claim
says is propagated unchanged, and the HTML renderer does the same. -/
theorem formatMonth_month13_wrong_error :
    FormatMonth 1 DefaultLocale 2026 13 2 0 = .error .indexOutOfRange ∧
    FormatMonthHTML 1 DefaultLocale (NewHTMLCalendar 1) 2026 13 true = .error .indexOutOfRange ∧
    GoPanic.indexOutOfRange ≠ GoPanic.invalidMonth := by
  refine ⟨?_, ?_, by decide⟩
  · exact FormatMonth_err_oob 1 2026 13 2 0 (by omega)
  · exact FormatMonthHTML_err_oob 1 2026 13 (NewHTMLCalendar 1) true (by omega)

/-- C3 as amended: for months in 1..12 all four operations succeed;
`MonthRange` and `MonthCalendar` fail with InvalidMonth exactly on months
outside 1..12 and the month is never silently clamped; the two renderers
also always fail outside 1..12, but with the InvalidMonth error only for
month 0 (where the month-name lookup still succeeds) — for negative
months or months above 12 they fail with the index-out-of-range panic
from the `MonthNames[month]` lookup instead. -/
theorem month_validation_behavior :
    ∀ (year month fw width lines : Int) (wy : Bool), 0 ≤ fw → fw ≤ 6 →
      ((1 ≤ month ∧ month ≤ 12) →
        (∃ p, MonthRange year month = .ok p) ∧
        (∃ g, MonthCalendar fw year month = .ok g) ∧
        (∃ s, FormatMonth fw DefaultLocale year month width lines = .ok s) ∧
        (∃ s, FormatMonthHTML fw DefaultLocale (NewHTMLCalendar fw) year month wy = .ok s)) ∧
      ((month < 1 ∨ 12 < month) →
        MonthRange year month = .error .invalidMonth ∧
        MonthCalendar fw year month = .error .invalidMonth ∧
        (month = 0 →
          FormatMonth fw DefaultLocale year month width lines = .error .invalidMonth ∧
          FormatMonthHTML fw DefaultLocale (NewHTMLCalendar fw) year month wy =
            .error .invalidMonth) ∧
        ((month < 0 ∨ 12 < month) →
          FormatMonth fw DefaultLocale year month width lines = .error .indexOutOfRange ∧
          FormatMonthHTML fw DefaultLocale (NewHTMLCalendar fw) year month wy =
            .error .indexOutOfRange)) := by
  intro year month fw width lines wy hf0 hf6
  constructor
  · intro ⟨hm1, hm2⟩
    exact ⟨⟨_, MonthRange_eq_ok year month hm1 hm2⟩,
      ⟨_, MonthCalendar_eq_ok fw year month hm1 hm2⟩,
      FormatMonth_ok fw year month width lines hm1 hm2 hf0,
      FormatMonthHTML_ok fw year month (NewHTMLCalendar fw) wy hm1 hm2
        (NewHTMLCalendar_fw_bounds fw).1⟩
  · intro h
    refine ⟨MonthRange_eq_error year month h, MonthCalendar_eq_error fw year month h, ?_, ?_⟩
    · intro h0
      subst h0
      exact ⟨FormatMonth_err_zero fw year width lines hf0,
        FormatMonthHTML_err_zero fw year (NewHTMLCalendar fw) wy
          (NewHTMLCalendar_fw_bounds fw).1⟩
    · intro h1
      exact ⟨FormatMonth_err_oob fw year month width lines h1,
        FormatMonthHTML_err_oob fw year month (NewHTMLCalendar fw) wy h1⟩

/-- Witness for C3's amended statement: both sides exercised, at month 2
and month 0 (first weekday Monday, width 2). -/
theorem month_validation_behavior_witness :
    ((∃ p, MonthRange 2026 2 = .ok p) ∧
      (∃ g, MonthCalendar 1 2026 2 = .ok g) ∧
      (∃ s, FormatMonth 1 DefaultLocale 2026 2 2 0 = .ok s) ∧
      (∃ s, FormatMonthHTML 1 DefaultLocale (NewHTMLCalendar 1) 2026 2 true = .ok s)) ∧
    (MonthRange 2026 0 = .error .invalidMonth ∧
      MonthCalendar 1 2026 0 = .error .invalidMonth ∧
      FormatMonth 1 DefaultLocale 2026 0 2 0 = .error .invalidMonth) :=
  ⟨(month_validation_behavior 2026 2 1 2 0 true (by decide) (by decide)).1
      ⟨by decide, by decide⟩,
   ((month_validation_behavior 2026 0 1 2 0 true (by decide) (by decide)).2
      (by omega)).1,
   ((month_validation_behavior 2026 0 1 2 0 true (by decide) (by decide)).2
      (by omega)).2.1,
   (((month_validation_behavior 2026 0 1 2 0 true (by decide) (by decide)).2
      (by omega)).2.2.1 rfl).1⟩

/-- Counterexample for C4: at width 2 the week-header abbreviations are
truncated to the field width, so the second output line of
`FormatMonth(2026, 2, 2, 0)` is "Mo Tu We Th Fr Sa Su", not the
"Mon Tue Wed Thu Fri Sat Sun" the claim states. -/
theorem formatMonth_width2_header_truncated :
    (FormatMonth 1 DefaultLocale 2026 2 2 0).map (fun s => (splitLines s)[1]?) =
      .ok (some "Mo Tu We Th Fr Sa Su") ∧
    (some "Mo Tu We Th Fr Sa Su" : Option String) ≠ some "Mon Tue Wed Thu Fri Sat Sun" := by
  decide

/-- C4 as amended: with first weekday Monday and the default locale,
`FormatMonth(2026, 2, 2, 0)` is exactly a title line containing
"February 2026", the week header with each abbreviation truncated to the
width of 2 ("Mo Tu We Th Fr Sa Su"), and 5 aligned grid lines in which
every day is right-justified in 2 columns and every sentinel cell is an
all-space field. -/
theorem formatMonth_feb2026_exact :
    FormatMonth 1 DefaultLocale 2026 2 2 0 =
      .ok ("   February 2026\nMo Tu We Th Fr Sa Su\n                   1 \n" ++
        " 2  3  4  5  6  7  8 \n 9 10 11 12 13 14 15 \n16 17 18 19 20 21 22 \n" ++
        "23 24 25 26 27 28    \n") := by
  decide

/-! ## Character-level lemmas for the rendering round trip -/

theorem concatStrs_cons (x : String) (xs : List String) :
    concatStrs (x :: xs) = x ++ concatStrs xs := rfl

theorem padLeft_data (w : Int) (s : String) :
    (padLeft w s).data = List.replicate (w - (s.length : Int)).toNat ' ' ++ s.data := by
  rw [padLeft, String.data_append]

theorem mem_padLeft_data (w : Int) (s : String) (c : Char)
    (h : c ∈ (padLeft w s).data) : c = ' ' ∨ c ∈ s.data := by
  rw [padLeft_data] at h
  rcases List.mem_append.mp h with h | h
  · exact Or.inl (List.eq_of_mem_replicate h)
  · exact Or.inr h

theorem mem_truncGo_data (s : String) (w : Int) (c : Char)
    (h : c ∈ (truncGo s w).data) : c ∈ s.data := by
  unfold truncGo at h
  split at h
  · exact List.mem_of_mem_take h
  · exact h

theorem mem_dropRightOne_data (s : String) (c : Char)
    (h : c ∈ (dropRightOne s).data) : c ∈ s.data :=
  List.dropLast_subset _ h

theorem digitChar_not_ws (k : Nat) : isWsChar (digitChar k) = false := by
  unfold digitChar
  split_ifs <;> rfl

theorem digitChar_ne_nl (k : Nat) : (digitChar k == '\n') = false := by
  unfold digitChar
  split_ifs <;> rfl

theorem natDigits_not_ws : ∀ (fuel n : Nat), ∀ c ∈ natDigits fuel n, isWsChar c = false
  | 0, _ => by intro c hc; cases hc
  | _ + 1, 0 => by intro c hc; cases hc
  | fuel + 1, n + 1 => by
    intro c hc
    rw [natDigits] at hc
    rcases List.mem_append.mp hc with h | h
    · exact natDigits_not_ws fuel _ c h
    · rw [List.mem_singleton.mp h]
      exact digitChar_not_ws _

theorem natDigits_ne_nl : ∀ (fuel n : Nat), ∀ c ∈ natDigits fuel n, (c == '\n') = false
  | 0, _ => by intro c hc; cases hc
  | _ + 1, 0 => by intro c hc; cases hc
  | fuel + 1, n + 1 => by
    intro c hc
    rw [natDigits] at hc
    rcases List.mem_append.mp hc with h | h
    · exact natDigits_ne_nl fuel _ c h
    · rw [List.mem_singleton.mp h]
      exact digitChar_ne_nl _

theorem natRepr_not_ws (n : Nat) : ∀ c ∈ (natRepr n).data, isWsChar c = false := by
  unfold natRepr
  split
  · intro c hc
    rw [List.mem_singleton.mp hc]
    rfl
  · exact natDigits_not_ws 10 n

theorem natRepr_ne_nl (n : Nat) : ∀ c ∈ (natRepr n).data, (c == '\n') = false := by
  unfold natRepr
  split
  · intro c hc
    rw [List.mem_singleton.mp hc]
    rfl
  · exact natDigits_ne_nl 10 n

theorem natRepr_data_ne_nil (n : Nat) : (natRepr n).data ≠ [] := by
  unfold natRepr
  split
  · exact by simp
  · rename_i h
    obtain ⟨m, rfl⟩ := Nat.exists_eq_succ_of_ne_zero h
    rw [natDigits]
    simp

theorem intRepr_pos (d : Int) (h : 0 < d) : intRepr d = natRepr d.toNat := by
  rw [intRepr, if_neg (by omega)]

theorem intRepr_ne_nl (i : Int) : ∀ c ∈ (intRepr i).data, (c == '\n') = false := by
  unfold intRepr
  split
  · intro c hc
    rw [String.data_append] at hc
    rcases List.mem_append.mp hc with h | h
    · rw [List.mem_singleton.mp h]
      rfl
    · exact natRepr_ne_nl _ c h
  · exact natRepr_ne_nl _

/-! ## Whitespace-token lemmas -/

theorem wsTokensChars_nil_nil : wsTokensChars [] [] = [] := rfl

theorem wsTokensChars_ws_prefix :
    ∀ (pre cs : List Char), (∀ c ∈ pre, isWsChar c = true) →
      wsTokensChars [] (pre ++ cs) = wsTokensChars [] cs
  | [], _, _ => rfl
  | c :: pre, cs, h => by
    have hc : isWsChar c = true := h c (List.mem_cons_self _ _)
    rw [List.cons_append, wsTokensChars, hc]
    simp only [List.isEmpty_nil, if_true]
    exact wsTokensChars_ws_prefix pre cs (fun d hd => h d (List.mem_cons_of_mem _ hd))

theorem wsTokensChars_ws_cons (c : Char) (cs : List Char) (h : isWsChar c = true) :
    wsTokensChars [] (c :: cs) = wsTokensChars [] cs := by
  rw [wsTokensChars, h]
  simp

theorem wsTokensChars_word :
    ∀ (word acc : List Char) (sep : Char) (cs : List Char), word ≠ [] →
      (∀ c ∈ word, isWsChar c = false) → isWsChar sep = true →
      wsTokensChars acc (word ++ sep :: cs) = (acc.reverse ++ word) :: wsTokensChars [] cs
  | [], _, _, _, hne, _, _ => absurd rfl hne
  | [c], acc, sep, cs, _, hw, hsep => by
    have hc : isWsChar c = false := hw c (List.mem_singleton_self c)
    rw [List.cons_append, List.nil_append, wsTokensChars, hc]
    simp only [Bool.false_eq_true, if_false]
    rw [wsTokensChars, hsep]
    simp [List.reverse_cons]
  | c :: c2 :: w, acc, sep, cs, _, hw, hsep => by
    have hc : isWsChar c = false := hw c (List.mem_cons_self _ _)
    rw [List.cons_append, wsTokensChars, hc]
    simp only [Bool.false_eq_true, if_false]
    rw [wsTokensChars_word (c2 :: w) (c :: acc) sep cs (by simp)
      (fun d hd => hw d (List.mem_cons_of_mem _ hd)) hsep]
    simp [List.append_assoc]

theorem except_bind_ok {ε α β : Type} (a : α) (f : α → Except ε β) :
    (Except.ok a >>= f) = f a := rfl

theorem except_bind_err {ε α β : Type} (e : ε) (f : α → Except ε β) :
    ((Except.error e : Except ε α) >>= f) = .error e := rfl

theorem wsTokens_cellText (w d : Int) (rest : List Char) (hd : 0 ≤ d) :
    wsTokensChars [] ((cellText w d).data ++ rest) =
      (if d == 0 then ([] : List (List Char)) else [(natRepr d.toNat).data]) ++
        wsTokensChars [] rest := by
  by_cases h0 : d = 0
  · subst h0
    have hdata : (cellText w 0).data ++ rest =
        (List.replicate (w - (("" : String).length : Int)).toNat ' ' ++ [' ']) ++ rest := by
      rw [cellText]
      simp only [beq_self_eq_true, if_true]
      rw [String.data_append, padLeft_data]
      simp
    rw [hdata, wsTokensChars_ws_prefix _ _ (by
      intro c hc
      rcases List.mem_append.mp hc with h | h
      · rw [List.eq_of_mem_replicate h]; rfl
      · rw [List.mem_singleton.mp h]; rfl)]
    rfl
  · have hpos : 0 < d := by omega
    rw [cellText]
    simp only [beq_iff_eq, h0, if_false]
    rw [String.data_append, padLeft_data, intRepr_pos d hpos]
    rw [List.append_assoc, List.append_assoc,
      wsTokensChars_ws_prefix _ _ (fun c hc => by rw [List.eq_of_mem_replicate hc]; rfl)]
    have hsp : (" " : String).data ++ rest = ' ' :: rest := rfl
    rw [hsp, wsTokensChars_word _ [] ' ' rest (natRepr_data_ne_nil _)
      (natRepr_not_ws _) rfl]
    simp

theorem wsTokens_rowText (w : Int) :
    ∀ (cells : List Int) (rest : List Char), (∀ d ∈ cells, 0 ≤ d) →
      wsTokensChars [] ((rowText w cells).data ++ rest) =
        (cells.filter (fun d => d != 0)).map (fun d => (natRepr d.toNat).data) ++
          wsTokensChars [] rest
  | [], rest, _ => by
    rw [show rowText w [] = "" from rfl]
    rfl
  | d :: cells, rest, h => by
    rw [show rowText w (d :: cells) = cellText w d ++ rowText w cells from rfl,
      String.data_append, List.append_assoc,
      wsTokens_cellText w d _ (h d (List.mem_cons_self _ _)),
      wsTokens_rowText w cells rest (fun e he => h e (List.mem_cons_of_mem _ he)),
      List.filter_cons]
    by_cases h0 : d = 0
    · subst h0
      simp
    · simp [h0]

theorem wsTokens_monthBody (w : Int) :
    ∀ (rows : List (List Int)) (rest : List Char), (∀ r ∈ rows, ∀ d ∈ r, 0 ≤ d) →
      wsTokensChars [] ((monthBody w 0 rows).data ++ rest) =
        (rows.flatten.filter (fun d => d != 0)).map (fun d => (natRepr d.toNat).data) ++
          wsTokensChars [] rest
  | [], rest, _ => by
    rw [show monthBody w 0 [] = "" from rfl]
    rfl
  | r :: rows, rest, h => by
    have hstep : monthBody w 0 (r :: rows) =
        (rowText w r ++ "\n" ++ "") ++ monthBody w 0 rows := by
      rw [monthBody, List.map_cons, concatStrs_cons]
      rfl
    rw [hstep, String.data_append, String.data_append, String.data_append]
    have hsh : (rowText w r).data ++ ("\n" : String).data ++ ("" : String).data ++
        (monthBody w 0 rows).data ++ rest =
        (rowText w r).data ++ ('\n' :: ((monthBody w 0 rows).data ++ rest)) := by
      simp
    rw [hsh, wsTokens_rowText w r _ (h r (List.mem_cons_self _ _)),
      wsTokensChars_ws_cons '\n' _ rfl,
      wsTokens_monthBody w rows rest (fun q hq => h q (List.mem_cons_of_mem _ hq))]
    simp

theorem dropLinesChars_line :
    ∀ (pre : List Char), (∀ c ∈ pre, (c == '\n') = false) →
      ∀ (cs : List Char) (n : Nat),
        dropLinesChars (pre ++ '\n' :: cs) (n + 1) = dropLinesChars cs n
  | [], _ => by
    intro cs n
    rw [List.nil_append, dropLinesChars]
    simp
  | c :: pre, h => by
    intro cs n
    have hc := h c (List.mem_cons_self _ _)
    rw [List.cons_append, dropLinesChars, hc]
    simp only [Bool.false_eq_true, if_false]
    exact dropLinesChars_line pre (fun d hd => h d (List.mem_cons_of_mem _ hd)) cs n

theorem goIndex_mem (l : List String) (i : Int) (s : String)
    (h : goIndex l i = .ok s) : s ∈ l := by
  unfold goIndex at h
  split at h
  · cases hg : l[i.toNat]? with
    | none => rw [hg] at h; cases h
    | some a =>
      rw [hg] at h
      cases h
      obtain ⟨hlt, hEq⟩ := List.getElem?_eq_some.mp hg
      rw [← hEq]
      exact List.getElem_mem hlt
  · cases h

theorem weekHeaderCells_no_nl (fw w : Int) (loc : Locale)
    (habbr : ∀ a ∈ loc.DayAbbrs, ∀ c ∈ a.data, (c == '\n') = false) :
    ∀ (is : List Int) (s : String), weekHeaderCells fw loc w is = .ok s →
      ∀ c ∈ s.data, (c == '\n') = false
  | [], s, hs => by
    cases hs
    intro c hc
    cases hc
  | i :: is, s, hs => by
    rw [weekHeaderCells] at hs
    cases hgi : goIndex loc.DayAbbrs (goMod (i + fw) 7) with
    | error e => rw [hgi, except_bind_err] at hs; cases hs
    | ok abbr =>
      rw [hgi, except_bind_ok] at hs
      cases hrest : weekHeaderCells fw loc w is with
      | error e => rw [hrest, except_bind_err] at hs; cases hs
      | ok rest =>
        rw [hrest, except_bind_ok] at hs
        cases hs
        intro c hc
        rw [String.data_append, String.data_append] at hc
        rcases List.mem_append.mp hc with hc | hc
        · rcases List.mem_append.mp hc with hc | hc
          · rcases mem_padLeft_data _ _ _ hc with rfl | hc
            · rfl
            · exact habbr abbr (goIndex_mem _ _ _ hgi) c (mem_truncGo_data _ _ _ hc)
          · rw [List.mem_singleton.mp hc]
            rfl
        · exact weekHeaderCells_no_nl fw w loc habbr is rest hrest c hc

theorem weekHeader_no_nl (fw w : Int) (loc : Locale)
    (habbr : ∀ a ∈ loc.DayAbbrs, ∀ c ∈ a.data, (c == '\n') = false)
    (s : String) (hs : weekHeader fw loc w = .ok s) :
    ∀ c ∈ s.data, (c == '\n') = false := by
  rw [weekHeader] at hs
  cases hcells : weekHeaderCells fw loc w [0, 1, 2, 3, 4, 5, 6] with
  | error e => rw [hcells, except_bind_err] at hs; cases hs
  | ok t =>
    rw [hcells, except_bind_ok] at hs
    cases hs
    intro c hc
    exact weekHeaderCells_no_nl fw w loc habbr _ t hcells c (mem_dropRightOne_data _ _ hc)

theorem defaultMonthNames_no_nl :
    ∀ s ∈ DefaultLocale.MonthNames, ∀ c ∈ s.data, (c == '\n') = false := by decide

theorem defaultDayAbbrs_no_nl :
    ∀ a ∈ DefaultLocale.DayAbbrs, ∀ c ∈ a.data, (c == '\n') = false := by decide

theorem FormatMonth_eq (fw year month width lines : Int) (loc : Locale)
    (hw2 : ¬ width < 2) (name wh : String) (grid : List (List Int))
    (hname : goIndex loc.MonthNames month = .ok name)
    (hwh : weekHeader fw loc width = .ok wh)
    (hcal : MonthCalendar fw year month = .ok grid) :
    FormatMonth fw loc year month width lines =
      .ok (padLeft (goDiv (7 * (width + 1) - 1 +
            ((name ++ " " ++ intRepr year).length : Int)) 2) (name ++ " " ++ intRepr year) ++
          "\n" ++ (wh ++ "\n") ++ monthBody width lines grid) := by
  simp only [FormatMonth, if_neg hw2, hname, hwh, hcal, except_bind_ok]
  rfl

/-- C5: for every year, month in 1..12, width at least 2 and first
weekday in 0..6, discarding the title and week-header lines of
`FormatMonth(year, month, width, 0)` (default locale) and splitting the
rest on whitespace yields exactly the decimal tokens `1..daysInMonth` in
order: rendering then re-parsing reproduces the grid's day sequence. -/
theorem formatMonth_parse_roundTrip :
    ∀ (year month width fw : Int), 1 ≤ month → month ≤ 12 → 2 ≤ width →
      0 ≤ fw → fw ≤ 6 →
      ∃ wd days out,
        MonthRange year month = .ok (wd, days) ∧
        FormatMonth fw DefaultLocale year month width 0 = .ok out ∧
        wsTokens (dropLines 2 out) =
          (List.range days.toNat).map (fun i => natRepr (i + 1)) := by
  intro year month width fw hm1 hm2 hw2 hf0 hf6
  obtain ⟨name, hname, hnameMem⟩ := goIndex_ok DefaultLocale.MonthNames month (by omega)
    (by show month.toNat < 13; omega)
  obtain ⟨wh, hwh⟩ := weekHeader_ok fw width DefaultLocale hf0 rfl
  have hcal := MonthCalendar_eq_ok fw year month hm1 hm2
  have hg := gridProps_valid (goMod (Weekday year month 1 - fw + 7) 7) (monthDays year month)
    (shift_nonneg _ fw (Weekday_nonneg year month 1) hf6)
    (shift_le_six (Weekday year month 1) fw) (monthDays_cases year month)
  refine ⟨Weekday year month 1, monthDays year month, _,
    MonthRange_eq_ok year month hm1 hm2,
    FormatMonth_eq fw year month width 0 DefaultLocale (by omega) name wh _ hname hwh hcal, ?_⟩
  have hsp : (" " : String).data = [' '] := rfl
  have hnl : ("\n" : String).data = ['\n'] := rfl
  have htitle_no_nl : ∀ c ∈ (padLeft (goDiv (7 * (width + 1) - 1 +
      ((name ++ " " ++ intRepr year).length : Int)) 2) (name ++ " " ++ intRepr year)).data,
      (c == '\n') = false := by
    intro c hc
    rcases mem_padLeft_data _ _ _ hc with rfl | hc
    · rfl
    · rw [String.data_append, String.data_append, hsp] at hc
      rcases List.mem_append.mp hc with hc | hc
      · rcases List.mem_append.mp hc with hc | hc
        · exact defaultMonthNames_no_nl name hnameMem c hc
        · rw [List.mem_singleton.mp hc]
          rfl
      · exact intRepr_ne_nl year c hc
  have hwh_no_nl := weekHeader_no_nl fw width DefaultLocale defaultDayAbbrs_no_nl wh hwh
  have hout : (padLeft (goDiv (7 * (width + 1) - 1 +
        ((name ++ " " ++ intRepr year).length : Int)) 2) (name ++ " " ++ intRepr year) ++
        "\n" ++ (wh ++ "\n") ++
        monthBody width 0 (monthWeeks (goMod (Weekday year month 1 - fw + 7) 7)
          (monthDays year month) 6 0 1)).data =
      (padLeft (goDiv (7 * (width + 1) - 1 +
        ((name ++ " " ++ intRepr year).length : Int)) 2) (name ++ " " ++ intRepr year)).data ++
        '\n' :: (wh.data ++
          '\n' :: (monthBody width 0 (monthWeeks (goMod (Weekday year month 1 - fw + 7) 7)
            (monthDays year month) 6 0 1)).data) := by
    rw [String.data_append, String.data_append, String.data_append, String.data_append, hnl]
    simp
  rw [dropLines, hout, dropLinesChars_line _ htitle_no_nl _ 1,
    dropLinesChars_line _ hwh_no_nl _ 0]
  rw [show ∀ l : List Char, dropLinesChars l 0 = l from fun l => by cases l <;> rfl]
  rw [wsTokens]
  have hbody : (monthBody width 0 (monthWeeks (goMod (Weekday year month 1 - fw + 7) 7)
      (monthDays year month) 6 0 1)).data =
      (monthBody width 0 (monthWeeks (goMod (Weekday year month 1 - fw + 7) 7)
        (monthDays year month) 6 0 1)).data ++ [] := by
    rw [List.append_nil]
  rw [show (String.mk ((monthBody width 0 (monthWeeks (goMod (Weekday year month 1 - fw + 7) 7)
      (monthDays year month) 6 0 1)).data)).data =
      (monthBody width 0 (monthWeeks (goMod (Weekday year month 1 - fw + 7) 7)
        (monthDays year month) 6 0 1)).data from rfl, hbody,
    wsTokens_monthBody width _ [] hg.2.2.2.2, wsTokensChars_nil_nil, List.append_nil,
    hg.2.1]
  simp only [List.map_map]
  refine List.map_congr_left ?_
  intro i _
  show natRepr ((i : Int) + 1).toNat = natRepr (i + 1)
  congr 1

/-- Witness for C5 at year 2026, month 2, width 2, first weekday
Monday. -/
theorem formatMonth_parse_roundTrip_witness :
    ∃ wd days out,
      MonthRange 2026 2 = .ok (wd, days) ∧
      FormatMonth 1 DefaultLocale 2026 2 2 0 = .ok out ∧
      wsTokens (dropLines 2 out) =
        (List.range days.toNat).map (fun i => natRepr (i + 1)) :=
  formatMonth_parse_roundTrip 2026 2 2 1 (by decide) (by decide) (by decide)
    (by decide) (by decide)

end Calendar
